import Mathlib

/-!
Verification of the PublisherAgent repository (an ad-publishing conversational
agent written in TypeScript) against its natural-language specification.

The development shallowly embeds the deterministic logic of the source files
`src/adAgent.ts`, `src/s3UploadTool.ts` and `src/s3Client.ts`:

* JavaScript exceptions are modelled by the `JsThrown` type (a thrown value is
  either an `Error` carrying a message, or some other value);
* fallible SDK calls (`wallet.invokeContract`, `contractInvocation.wait`) are
  modelled as `Except JsThrown` results carried by the wallet value;
* the ambient nondeterminism of `Date.now()` and `Math.random()` is passed as
  explicit arguments;
* JavaScript truthiness on optional strings (`undefined`/`""` are falsy) is
  modelled by `jsFalsyOptStr`.
-/

/-! ## String containment machinery

Substring containment is defined executably on the underlying character
lists so that concrete instances can be settled by `decide`. -/

/-- Boolean test that `sub` is a leading segment of `l`. -/
def leadsWith : List Char → List Char → Bool
  | [], _ => true
  | _ :: _, [] => false
  | a :: as, b :: bs => a == b && leadsWith as bs

/-- Boolean test that `sub` occurs as a contiguous segment of `l`. -/
def hasSegment (sub : List Char) : List Char → Bool
  | [] => sub.isEmpty
  | a :: rest => leadsWith sub (a :: rest) || hasSegment sub rest

/-- String `s` contains `sub` as a contiguous substring. -/
def strContains (s sub : String) : Bool :=
  hasSegment sub.data s.data

theorem str_data_append (a b : String) : (a ++ b).data = a.data ++ b.data := rfl

theorem str_ext {s t : String} (h : s.data = t.data) : s = t := by
  cases s; cases t; exact congrArg String.mk h

theorem leadsWith_self_append (l t : List Char) : leadsWith l (l ++ t) = true := by
  induction l with
  | nil => rfl
  | cons a as ih => simp [leadsWith, ih]

theorem hasSegment_nil_sub (l : List Char) : hasSegment [] l = true := by
  cases l with
  | nil => rfl
  | cons a rest => simp [hasSegment, leadsWith]

theorem hasSegment_self_append (sub t : List Char) : hasSegment sub (sub ++ t) = true := by
  cases sub with
  | nil => exact hasSegment_nil_sub t
  | cons s ss =>
    simp only [List.cons_append, hasSegment, Bool.or_eq_true]
    exact Or.inl (leadsWith_self_append (s :: ss) t)

theorem hasSegment_append_left (p l sub : List Char) (h : hasSegment sub l = true) :
    hasSegment sub (p ++ l) = true := by
  induction p with
  | nil => simpa using h
  | cons a p' ih => simp [hasSegment, ih]

theorem hasSegment_of_decomp (sub p t l : List Char) (h : l = p ++ sub ++ t) :
    hasSegment sub l = true := by
  subst h
  rw [List.append_assoc]
  exact hasSegment_append_left p (sub ++ t) sub (hasSegment_self_append sub t)

theorem strContains_of_decomp (s sub : String) (p t : List Char)
    (h : s.data = p ++ sub.data ++ t) : strContains s sub = true :=
  hasSegment_of_decomp sub.data p t s.data h

/-! ## JavaScript value modelling -/

/-- Model of a thrown JavaScript value: either an `Error` instance exposing a
`message` (the `error instanceof Error` branch of the source's `catch`
blocks), or any other thrown value. -/
inductive JsThrown where
  | error (message : String)
  | nonError
deriving DecidableEq

/-- JavaScript truthiness on an optional string: `undefined`/`null` (here
`none`) and the empty string are falsy, mirroring `!x` checks in the source. -/
def jsFalsyOptStr : Option String → Bool
  | none => true
  | some s => s.isEmpty

/-! ## Contract invocation (src/adAgent.ts, `invokeContract`, lines 128-162;
the identical copy in the unnamed variant file is covered by the same
embedding) -/

/-- Model of one entry of an ABI parameter list (`AbiInputOutput` in the
source): a `name` and a `type`. -/
structure AbiParam where
  name : String
  type : String
deriving DecidableEq

/-- Model of one entry of the ABI list (`AbiFunctionDefinition` in the
source). -/
structure AbiFunction where
  name : String
  type : String
  inputs : List AbiParam
  outputs : Option (List AbiParam)
  stateMutability : Option String
deriving DecidableEq

/-- Arguments of the `createAd` contract call (the `args` object of
`InvokeContractInput`): recipient address, title, text and image URL. -/
structure ContractArgs where
  «to» : String
  title : String
  text : String
  imageURL : String
deriving DecidableEq

/-- Model of the object `{contractAddress, method, args, abi}` passed to
`wallet.invokeContract` in the source. -/
structure ContractCall where
  contractAddress : String
  method : String
  args : ContractArgs
  abi : List AbiFunction

/-- Model of a transaction receipt: `getTransactionHash` is `none` when the
underlying SDK returns `undefined`/`null`. -/
structure Receipt where
  getTransactionHash : Option String

/-- Model of the pending invocation returned by `wallet.invokeContract`; its
`wait` either throws (confirmation failure) or yields a receipt. -/
structure ContractInvocation where
  wait : Except JsThrown Receipt

/-- Model of the wallet capability: `invokeContract` either throws
(submission failure) or yields a pending invocation. -/
structure Wallet where
  invokeContract : ContractCall → Except JsThrown ContractInvocation

/-- Success message template of `invokeContract` (source line 155): explorer
link around the transaction hash, then an OpenSea link around `args.to`. -/
def adSuccessMessage (txHash recipient : String) : String :=
  "Ad Created successfully. Transaction hash: https://sepolia.basescan.org/tx/"
    ++ txHash ++ " \n https://testnets.opensea.io/" ++ recipient

/-- Soft-success message returned when the receipt carries no transaction
hash (source line 152). -/
def noHashMessage : String :=
  "Contract invocation completed, but transaction hash is not available"

/-- Body of the `try` block of `invokeContract` (source lines 135-155): ABI
lookup, submission, confirmation, hash extraction and result formatting.
A `.error` result models a thrown exception reaching the `catch`. -/
def invokeContractTry (wallet : Wallet) (contractAddress method : String)
    (abi : List AbiFunction) (args : ContractArgs) : Except JsThrown String :=
  match abi.find? (fun func => func.name == method) with
  | none => Except.error (JsThrown.error ("Method " ++ method ++ " not found in ABI"))
  | some _ =>
    match wallet.invokeContract ⟨contractAddress, method, args, abi⟩ with
    | Except.error e => Except.error e
    | Except.ok contractInvocation =>
      match contractInvocation.wait with
      | Except.error e => Except.error e
      | Except.ok receipt =>
        if jsFalsyOptStr receipt.getTransactionHash then Except.ok noHashMessage
        else Except.ok (adSuccessMessage (receipt.getTransactionHash.getD "") args.«to»)

/-- Model of `invokeContract` (source lines 128-162): the `try` body with the
`catch` block applied, so the overall result is always a plain string. -/
def invokeContract (wallet : Wallet) (contractAddress method : String)
    (abi : List AbiFunction) (args : ContractArgs) : String :=
  match invokeContractTry wallet contractAddress method abi args with
  | Except.ok s => s
  | Except.error (JsThrown.error msg) => "Failed to publish ad: " ++ msg
  | Except.error JsThrown.nonError => "Failed to publish ad due to an unknown error"

/-- Contract address and single-entry ABI used by the `create_ad` tool
(source lines 77-91). -/
def AD_CONTRACT_ADDRESS : String := "0xF714043eE1176B16dd6C9E9beB260D6b4D8eab95"

def AD_CONTRACT_ABI : List AbiFunction :=
  [⟨"createAd", "function",
    [⟨"to", "address"⟩, ⟨"title", "string"⟩, ⟨"text", "string"⟩, ⟨"imageURL", "string"⟩],
    some [⟨"", "uint256"⟩], some "nonpayable"⟩]

/-! ## Startup environment validation (src/adAgent.ts, `validateEnvironment`,
lines 24-54) -/

/-- Model of the process environment: a map from variable name to its value,
`none` when the variable is unset. -/
def Env : Type := String → Option String

/-- Required environment variables (source lines 28-32): the language-model
API key and the two wallet API credentials. -/
def requiredVars : List String := ["OPENAI_API_KEY", "CDP_API_KEY_NAME", "CDP_API_KEY_PRIVATE_KEY"]

/-- Names collected by the `forEach`/`push` loop of `validateEnvironment`
(source lines 33-37): the required variables whose value is falsy, in order. -/
def missingVars (env : Env) : List String :=
  requiredVars.filter (fun varName => jsFalsyOptStr (env varName))

/-- Line printed for one missing variable (source line 43). -/
def missingVarLine (varName : String) : String :=
  varName ++ "=your_" ++ ⟨varName.data.map Char.toLower⟩ ++ "_here"

/-- Observable outcome of `validateEnvironment`: either the process exits
with a code after printing the given lines, or validation passes (recording
whether the optional-network warning was printed). -/
inductive StartupResult where
  | exited (code : Nat) (printedLines : List String)
  | passed (warnedNetwork : Bool)
deriving DecidableEq

/-- Model of `validateEnvironment` (source lines 24-54): exit with code 1
listing the missing required variables when any is missing, otherwise pass,
warning when the optional `NETWORK_ID` is unset. -/
def validateEnvironment (env : Env) : StartupResult :=
  let missing := missingVars env
  if missing.isEmpty then StartupResult.passed (jsFalsyOptStr (env "NETWORK_ID"))
  else
    StartupResult.exited 1
      ("Error: Required environment variables are not set" :: missing.map missingVarLine)

/-! ## Interaction shell (src/adAgent.ts, `runChatMode` lines 352-394 and
`chooseMode` lines 401-429) -/

/-- Model of JavaScript `toLowerCase()` on the strings compared by the shell
(character-wise ASCII lowercasing, which agrees with `toLowerCase` on the
keywords `"exit"`, `"chat"`, `"auto"`, `"1"`, `"2"` compared here). -/
def jsToLower (s : String) : String := ⟨s.data.map Char.toLower⟩

/-- Model of JavaScript `trim()`: drop whitespace from both ends. -/
def jsTrim (s : String) : String :=
  ⟨((s.data.dropWhile Char.isWhitespace).reverse.dropWhile Char.isWhitespace).reverse⟩

/-- Model of the `runChatMode` loop (source lines 363-385) over the finite
sequence of lines read from standard input: returns the list of inputs
forwarded verbatim to `agent.stream`, stopping (without forwarding) at the
first line whose lowercasing is exactly `"exit"`. -/
def runChatMode : List String → List String
  | [] => []
  | userInput :: rest =>
    if jsToLower userInput = "exit" then []
    else userInput :: runChatMode rest

/-- The two interaction modes of the agent. -/
inductive AgentMode where
  | chat
  | auto
deriving DecidableEq

/-- Model of one round of the `chooseMode` prompt (source lines 416-424):
the answer is lowercased then trimmed; `"1"`/`"chat"` select chat,
`"2"`/`"auto"` select auto, anything else re-prompts (`none`). -/
def chooseMode (input : String) : Option AgentMode :=
  let choice := jsTrim (jsToLower input)
  if choice = "1" ∨ choice = "chat" then some AgentMode.chat
  else if choice = "2" ∨ choice = "auto" then some AgentMode.auto
  else none

/-! ## Agent initialization config (src/adAgent.ts, `initializeAgent`,
lines 191-195) -/

/-- Model of the CDP AgentKit wallet configuration object built in
`initializeAgent`. -/
structure CdpConfig where
  cdpWalletData : Option String
  networkId : String
deriving DecidableEq

/-- Model of `walletDataStr || undefined`: a falsy value (absent file or
empty content) becomes `undefined`. -/
def jsOrUndefined (s : Option String) : Option String :=
  if jsFalsyOptStr s then none else s

/-- Model of the `config` object constructed by `initializeAgent` (source
lines 191-195). The environment is passed in to express claims about it;
the source consults no environment variable here and sets `networkId` to
the string literal `"base-sepolia"`. -/
def initializeAgentConfig (_env : Env) (walletDataStr : Option String) : CdpConfig :=
  ⟨jsOrUndefined walletDataStr, "base-sepolia"⟩

/-! ## Object-storage upload (src/s3UploadTool.ts, `uploadImageUrlToS3`,
lines 17-53)

The generated object key interpolates `Date.now()` and
`Math.floor(Math.random() * 10000)` in decimal; those ambient values are
passed as explicit `now`/`rand` arguments. The fetch and the bucket write do
not influence the key or the returned URL, so the success path is modelled. -/

/-- Successful result of an upload: the generated object key and the
returned URL. -/
structure S3UploadResult where
  objectKey : String
  s3Url : String
deriving DecidableEq

/-- Model of the success path of `uploadImageUrlToS3` (source lines 17-53):
key `ad-images/{now}-{rand}.png` and virtual-hosted-style URL for the fixed
bucket and region. The source image URL only feeds the fetched buffer, not
the key or URL. -/
def uploadImageUrlToS3 (_imageUrl : String) (now rand : Nat) : S3UploadResult :=
  let objectKey := "ad-images/" ++ Nat.repr now ++ "-" ++ Nat.repr rand ++ ".png"
  ⟨objectKey, "https://placeholderads.s3.ap-south-1.amazonaws.com/" ++ objectKey⟩

/-! ### Decimal rendering facts

The lemmas below establish that the decimal rendering used in the object key
consists of digit characters only and is injective, which pins down exactly
when two generated keys coincide. -/

/-- Value of a big-endian list of decimal digit characters. -/
def decimalVal (l : List Char) : Nat :=
  l.foldl (fun acc c => 10 * acc + (c.toNat - 48)) 0

theorem digitChar_isDigit (m : Nat) (h : m < 10) : (Nat.digitChar m).isDigit = true := by
  interval_cases m <;> decide

theorem digitChar_toNat (m : Nat) (h : m < 10) : (Nat.digitChar m).toNat = 48 + m := by
  interval_cases m <;> decide

theorem isDigit_ne_dash {c : Char} (h : c.isDigit = true) : c ≠ '-' := by
  intro hc
  subst hc
  exact absurd h (by decide)

theorem toDigitsCore_acc (fuel : Nat) : ∀ (n : Nat) (acc : List Char),
    Nat.toDigitsCore 10 fuel n acc = Nat.toDigitsCore 10 fuel n [] ++ acc := by
  induction fuel with
  | zero => intro n acc; simp [Nat.toDigitsCore]
  | succ fuel ih =>
    intro n acc
    simp only [Nat.toDigitsCore]
    by_cases h : n / 10 = 0
    · simp [h]
    · simp only [if_neg h]
      rw [ih (n / 10) (Nat.digitChar (n % 10) :: acc), ih (n / 10) [Nat.digitChar (n % 10)]]
      simp

theorem toDigitsCore_digits (fuel : Nat) : ∀ (n : Nat) (acc : List Char),
    (∀ c ∈ acc, c.isDigit = true) → ∀ c ∈ Nat.toDigitsCore 10 fuel n acc, c.isDigit = true := by
  induction fuel with
  | zero => intro n acc hacc; simpa [Nat.toDigitsCore] using hacc
  | succ fuel ih =>
    intro n acc hacc
    have hd : (Nat.digitChar (n % 10)).isDigit = true :=
      digitChar_isDigit (n % 10) (Nat.mod_lt n (by norm_num))
    have hacc' : ∀ c ∈ Nat.digitChar (n % 10) :: acc, c.isDigit = true := by
      intro c hc
      rcases List.mem_cons.mp hc with h | h
      · simpa [h] using hd
      · exact hacc c h
    simp only [Nat.toDigitsCore]
    by_cases h : n / 10 = 0
    · simpa [h] using hacc'
    · simpa [if_neg h] using ih (n / 10) (Nat.digitChar (n % 10) :: acc) hacc'

theorem toDigitsCore_nil_val (fuel : Nat) : ∀ n : Nat, n < fuel →
    decimalVal (Nat.toDigitsCore 10 fuel n []) = n := by
  induction fuel with
  | zero => intro n h; exact absurd h (Nat.not_lt_zero n)
  | succ fuel ih =>
    intro n h
    simp only [Nat.toDigitsCore]
    by_cases h0 : n / 10 = 0
    · have hn : n < 10 := (Nat.div_eq_zero_iff (by norm_num)).mp h0
      simp [if_pos h0, decimalVal, List.foldl, Nat.mod_eq_of_lt hn, digitChar_toNat n hn]
    · have hge : 10 ≤ n := by
        by_contra hlt
        exact h0 ((Nat.div_eq_zero_iff (by norm_num)).mpr (by omega))
      have hlt : n / 10 < fuel := by
        have h1 : n / 10 < n := Nat.div_lt_self (by omega) (by norm_num)
        omega
      rw [if_neg h0, toDigitsCore_acc]
      have hfold : decimalVal (Nat.toDigitsCore 10 fuel (n / 10) [] ++ [Nat.digitChar (n % 10)])
          = 10 * decimalVal (Nat.toDigitsCore 10 fuel (n / 10) [])
            + ((Nat.digitChar (n % 10)).toNat - 48) := by
        simp [decimalVal, List.foldl_append, List.foldl]
      rw [hfold, ih (n / 10) hlt, digitChar_toNat (n % 10) (Nat.mod_lt n (by norm_num))]
      omega

theorem repr_data (n : Nat) : (Nat.repr n).data = Nat.toDigitsCore 10 (n + 1) n [] := rfl

theorem repr_val (n : Nat) : decimalVal (Nat.repr n).data = n := by
  rw [repr_data]
  exact toDigitsCore_nil_val (n + 1) n (Nat.lt_succ_self n)

theorem repr_ne_dash (n : Nat) : ∀ c ∈ (Nat.repr n).data, c ≠ '-' := by
  intro c hc
  rw [repr_data] at hc
  exact isDigit_ne_dash (toDigitsCore_digits (n + 1) n [] (by simp) c hc)

theorem split_at_dash : ∀ (a₁ t₁ a₂ t₂ : List Char),
    (∀ c ∈ a₁, c ≠ '-') → (∀ c ∈ a₂, c ≠ '-') →
    a₁ ++ '-' :: t₁ = a₂ ++ '-' :: t₂ → a₁ = a₂ ∧ t₁ = t₂ := by
  intro a₁
  induction a₁ with
  | nil =>
    intro t₁ a₂ t₂ _ h₂ heq
    cases a₂ with
    | nil => simpa using heq
    | cons b bs =>
      exfalso
      have hb : b = '-' := by
        have := congrArg (fun l => l.head?) heq
        simpa using this.symm
      exact h₂ b (List.mem_cons_self b bs) hb
  | cons a as ih =>
    intro t₁ a₂ t₂ h₁ h₂ heq
    cases a₂ with
    | nil =>
      exfalso
      have ha : a = '-' := by
        have := congrArg (fun l => l.head?) heq
        simpa using this
      exact h₁ a (List.mem_cons_self a as) ha
    | cons b bs =>
      have hhead : a = b := by
        have := congrArg (fun l => l.head?) heq
        simpa using this
      have htail : as ++ '-' :: t₁ = bs ++ '-' :: t₂ := by
        have := congrArg List.tail heq
        simpa using this
      have h₁' : ∀ c ∈ as, c ≠ '-' := fun c hc => h₁ c (List.mem_cons_of_mem a hc)
      have h₂' : ∀ c ∈ bs, c ≠ '-' := fun c hc => h₂ c (List.mem_cons_of_mem b hc)
      obtain ⟨he, ht⟩ := ih t₁ bs t₂ h₁' h₂' htail
      exact ⟨by rw [hhead, he], ht⟩

theorem objectKey_inj (n₁ r₁ n₂ r₂ : Nat)
    (h : (uploadImageUrlToS3 "" n₁ r₁).objectKey = (uploadImageUrlToS3 "" n₂ r₂).objectKey) :
    n₁ = n₂ ∧ r₁ = r₂ := by
  have hdash : ("-" : String).data = ['-'] := rfl
  have hd := congrArg String.data h
  simp only [uploadImageUrlToS3, str_data_append, hdash, List.append_assoc,
    List.singleton_append] at hd
  have hd' := List.append_cancel_left hd
  obtain ⟨hA, hBP⟩ := split_at_dash _ _ _ _ (repr_ne_dash n₁) (repr_ne_dash n₂) hd'
  have hB := List.append_cancel_right hBP
  constructor
  · have := congrArg decimalVal hA
    rwa [repr_val, repr_val] at this
  · have := congrArg decimalVal hB
    rwa [repr_val, repr_val] at this

/-! ## Shared concrete fixtures used by the witness theorems -/

/-- Arguments of the spec's worked example: recipient `0xabc...`, title `T`,
text `X`, image URL `https://s3/...`. -/
def demoArgs : ContractArgs := ⟨"0xabc...", "T", "X", "https://s3/..."⟩

/-- Wallet stub whose submission succeeds and whose receipt carries the
transaction hash `0xdead`. -/
def demoWallet : Wallet := ⟨fun _ => Except.ok ⟨Except.ok ⟨some "0xdead"⟩⟩⟩

/-- Wallet stub whose submission throws an `Error` with a message. -/
def throwWallet : Wallet := ⟨fun _ => Except.error (JsThrown.error "insufficient funds")⟩

/-- Wallet stub whose submission throws a value that is not an `Error`. -/
def oddThrowWallet : Wallet := ⟨fun _ => Except.error JsThrown.nonError⟩

/-- Wallet stub whose receipt carries no transaction hash. -/
def noHashWallet : Wallet := ⟨fun _ => Except.ok ⟨Except.ok ⟨none⟩⟩⟩

/-! ## Claim theorems -/

theorem invokeContractTry_shapes (wallet : Wallet) (contractAddress method : String)
    (abi : List AbiFunction) (args : ContractArgs) :
    (∃ msg, invokeContractTry wallet contractAddress method abi args
        = Except.error (JsThrown.error msg)) ∨
    invokeContractTry wallet contractAddress method abi args
        = Except.error JsThrown.nonError ∨
    invokeContractTry wallet contractAddress method abi args = Except.ok noHashMessage ∨
    (∃ txHash, txHash ≠ "" ∧ invokeContractTry wallet contractAddress method abi args
        = Except.ok (adSuccessMessage txHash args.«to»)) := by
  cases habi : abi.find? (fun func => func.name == method) with
  | none =>
    exact Or.inl ⟨"Method " ++ method ++ " not found in ABI",
      by simp [invokeContractTry, habi]⟩
  | some f =>
    cases hw : wallet.invokeContract ⟨contractAddress, method, args, abi⟩ with
    | error e =>
      cases e with
      | error msg => exact Or.inl ⟨msg, by simp [invokeContractTry, habi, hw]⟩
      | nonError => exact Or.inr (Or.inl (by simp [invokeContractTry, habi, hw]))
    | ok contractInvocation =>
      cases hv : contractInvocation.wait with
      | error e =>
        cases e with
        | error msg => exact Or.inl ⟨msg, by simp [invokeContractTry, habi, hw, hv]⟩
        | nonError => exact Or.inr (Or.inl (by simp [invokeContractTry, habi, hw, hv]))
      | ok receipt =>
        cases hh : receipt.getTransactionHash with
        | none =>
          exact Or.inr (Or.inr (Or.inl
            (by simp [invokeContractTry, habi, hw, hv, hh, jsFalsyOptStr])))
        | some txHash =>
          by_cases hs : txHash = ""
          · refine Or.inr (Or.inr (Or.inl ?_))
            simp [invokeContractTry, habi, hw, hv, hh, jsFalsyOptStr, hs]
            intro hfalse
            exact absurd hfalse (by decide)
          · refine Or.inr (Or.inr (Or.inr ⟨txHash, hs, ?_⟩))
            simp [invokeContractTry, habi, hw, hv, hh, jsFalsyOptStr,
              String.isEmpty_iff, hs]

/-- C1: for every wallet, contract address, method name, ABI list and
argument record, `invokeContract` returns a plain string and never raises
past its boundary: every outcome is a caught-failure string (`Failed to
publish ad: ...`), the fixed unknown-failure string, the soft no-hash
message, or the success message, so every failure path is converted into a
descriptive string. -/
theorem invokeContract_total_shapes (wallet : Wallet) (contractAddress method : String)
    (abi : List AbiFunction) (args : ContractArgs) :
    (∃ msg, invokeContract wallet contractAddress method abi args
        = "Failed to publish ad: " ++ msg) ∨
    invokeContract wallet contractAddress method abi args
        = "Failed to publish ad due to an unknown error" ∨
    invokeContract wallet contractAddress method abi args = noHashMessage ∨
    (∃ txHash, txHash ≠ "" ∧ invokeContract wallet contractAddress method abi args
        = adSuccessMessage txHash args.«to») := by
  rcases invokeContractTry_shapes wallet contractAddress method abi args with
    ⟨msg, h⟩ | h | h | ⟨txHash, hne, h⟩
  · exact Or.inl ⟨msg, by simp [invokeContract, h]⟩
  · exact Or.inr (Or.inl (by simp [invokeContract, h]))
  · exact Or.inr (Or.inr (Or.inl (by simp [invokeContract, h])))
  · exact Or.inr (Or.inr (Or.inr ⟨txHash, hne, by simp [invokeContract, h]⟩))

/-- C2: when no ABI entry's name equals the requested method, the result is a
failure string containing "not found", and the result does not depend on the
wallet at all (the wallet's contract-submission operation is never
consulted). -/
theorem invokeContract_method_not_found (wallet wallet' : Wallet)
    (contractAddress method : String) (abi : List AbiFunction) (args : ContractArgs)
    (h : ∀ func ∈ abi, func.name ≠ method) :
    strContains (invokeContract wallet contractAddress method abi args) "not found" = true ∧
    invokeContract wallet contractAddress method abi args
      = invokeContract wallet' contractAddress method abi args := by
  have hfind : abi.find? (fun func => func.name == method) = none :=
    List.find?_eq_none.mpr (fun f hf => by simpa using h f hf)
  have hres : ∀ w : Wallet, invokeContract w contractAddress method abi args
      = "Failed to publish ad: " ++ ("Method " ++ method ++ " not found in ABI") := by
    intro w
    simp [invokeContract, invokeContractTry, hfind]
  refine ⟨?_, by rw [hres wallet, hres wallet']⟩
  rw [hres wallet]
  show hasSegment _ _ = true
  have hdata : ("Failed to publish ad: " ++ ("Method " ++ method ++ " not found in ABI")).data
      = ("Failed to publish ad: ".data ++ ("Method ".data ++ method.data))
        ++ (" not found in ABI" : String).data := by
    simp [str_data_append, List.append_assoc]
  rw [hdata]
  exact hasSegment_append_left _ _ _ (by decide)

theorem invokeContract_method_not_found_witness :
    strContains (invokeContract oddThrowWallet AD_CONTRACT_ADDRESS "mintAd"
      AD_CONTRACT_ABI demoArgs) "not found" = true ∧
    invokeContract oddThrowWallet AD_CONTRACT_ADDRESS "mintAd" AD_CONTRACT_ABI demoArgs
      = invokeContract demoWallet AD_CONTRACT_ADDRESS "mintAd" AD_CONTRACT_ABI demoArgs :=
  invokeContract_method_not_found oddThrowWallet demoWallet AD_CONTRACT_ADDRESS "mintAd"
    AD_CONTRACT_ABI demoArgs (by decide)

/-- C3: when the method is present in the ABI and the submitted invocation
confirms with a receipt carrying a non-empty transaction hash, the result is
the success message, which contains the hash, the block-explorer URL
fragment, and the recipient address from the arguments. -/
theorem invokeContract_success_links (wallet : Wallet) (contractAddress method : String)
    (abi : List AbiFunction) (args : ContractArgs) (contractInvocation : ContractInvocation)
    (receipt : Receipt) (txHash : String)
    (hm : ∃ func ∈ abi, func.name = method)
    (hw : wallet.invokeContract ⟨contractAddress, method, args, abi⟩
      = Except.ok contractInvocation)
    (hv : contractInvocation.wait = Except.ok receipt)
    (hh : receipt.getTransactionHash = some txHash)
    (hne : txHash ≠ "") :
    invokeContract wallet contractAddress method abi args = adSuccessMessage txHash args.«to» ∧
    strContains (invokeContract wallet contractAddress method abi args) txHash = true ∧
    strContains (invokeContract wallet contractAddress method abi args)
      "https://sepolia.basescan.org/tx/" = true ∧
    strContains (invokeContract wallet contractAddress method abi args) args.«to» = true := by
  have hfind : ∃ g, abi.find? (fun func => func.name == method) = some g := by
    obtain ⟨f, hf, hfn⟩ := hm
    have hsome : (abi.find? (fun func => func.name == method)).isSome = true := by
      rw [List.find?_isSome]
      exact ⟨f, hf, by simp [hfn]⟩
    exact Option.isSome_iff_exists.mp hsome
  obtain ⟨g, hg⟩ := hfind
  have hfalsy : txHash.isEmpty = false := by
    simp only [Bool.eq_false_iff, ne_eq, String.isEmpty_iff]
    exact hne
  have hres : invokeContract wallet contractAddress method abi args
      = adSuccessMessage txHash args.«to» := by
    simp [invokeContract, invokeContractTry, hg, hw, hv, hh, jsFalsyOptStr, hfalsy]
  refine ⟨hres, ?_, ?_, ?_⟩
  · rw [hres]
    apply strContains_of_decomp _ _
      ("Ad Created successfully. Transaction hash: https://sepolia.basescan.org/tx/"
        : String).data
      ((" \n https://testnets.opensea.io/" : String).data ++ args.«to».data)
    simp [adSuccessMessage, str_data_append, List.append_assoc]
  · rw [hres]
    apply strContains_of_decomp _ _
      (("Ad Created successfully. Transaction hash: " : String).data)
      (txHash.data ++ ((" \n https://testnets.opensea.io/" : String).data ++ args.«to».data))
    have hsplit : ("Ad Created successfully. Transaction hash: https://sepolia.basescan.org/tx/"
        : String).data
        = ("Ad Created successfully. Transaction hash: " : String).data
          ++ ("https://sepolia.basescan.org/tx/" : String).data := by decide
    simp [adSuccessMessage, str_data_append, hsplit, List.append_assoc]
  · rw [hres]
    apply strContains_of_decomp _ _
      (("Ad Created successfully. Transaction hash: https://sepolia.basescan.org/tx/"
        : String).data ++ txHash.data ++ (" \n https://testnets.opensea.io/" : String).data)
      []
    simp [adSuccessMessage, str_data_append, List.append_assoc]

theorem invokeContract_success_links_witness :
    invokeContract demoWallet AD_CONTRACT_ADDRESS "createAd" AD_CONTRACT_ABI demoArgs
      = adSuccessMessage "0xdead" "0xabc..." ∧
    strContains (invokeContract demoWallet AD_CONTRACT_ADDRESS "createAd"
      AD_CONTRACT_ABI demoArgs) "0xdead" = true ∧
    strContains (invokeContract demoWallet AD_CONTRACT_ADDRESS "createAd"
      AD_CONTRACT_ABI demoArgs) "https://sepolia.basescan.org/tx/" = true ∧
    strContains (invokeContract demoWallet AD_CONTRACT_ADDRESS "createAd"
      AD_CONTRACT_ABI demoArgs) "0xabc..." = true :=
  invokeContract_success_links demoWallet AD_CONTRACT_ADDRESS "createAd" AD_CONTRACT_ABI
    demoArgs ⟨Except.ok ⟨some "0xdead"⟩⟩ ⟨some "0xdead"⟩ "0xdead"
    ⟨AD_CONTRACT_ABI.head (by decide), by decide, by decide⟩ rfl rfl rfl (by decide)

/-- C5: when the method is present in the ABI and the submission or the
confirmation step throws, the result is the failure string carrying the
thrown error's message when the thrown value is an `Error`, and the fixed
generic fallback string when it is not. -/
theorem invokeContract_thrown_messages (wallet : Wallet) (contractAddress method : String)
    (abi : List AbiFunction) (args : ContractArgs) (thrown : JsThrown)
    (hm : ∃ func ∈ abi, func.name = method)
    (hthrow : wallet.invokeContract ⟨contractAddress, method, args, abi⟩
        = Except.error thrown ∨
      ∃ contractInvocation,
        wallet.invokeContract ⟨contractAddress, method, args, abi⟩
          = Except.ok contractInvocation ∧
        contractInvocation.wait = Except.error thrown) :
    (∀ msg, thrown = JsThrown.error msg →
      invokeContract wallet contractAddress method abi args = "Failed to publish ad: " ++ msg ∧
      strContains (invokeContract wallet contractAddress method abi args) msg = true) ∧
    (thrown = JsThrown.nonError →
      invokeContract wallet contractAddress method abi args
        = "Failed to publish ad due to an unknown error") := by
  have hfind : ∃ g, abi.find? (fun func => func.name == method) = some g := by
    obtain ⟨f, hf, hfn⟩ := hm
    have hsome : (abi.find? (fun func => func.name == method)).isSome = true := by
      rw [List.find?_isSome]
      exact ⟨f, hf, by simp [hfn]⟩
    exact Option.isSome_iff_exists.mp hsome
  obtain ⟨g, hg⟩ := hfind
  have htry : invokeContractTry wallet contractAddress method abi args
      = Except.error thrown := by
    rcases hthrow with hsub | ⟨contractInvocation, hsub, hwait⟩
    · simp [invokeContractTry, hg, hsub]
    · simp [invokeContractTry, hg, hsub, hwait]
  constructor
  · intro msg hmsg
    subst hmsg
    have hres : invokeContract wallet contractAddress method abi args
        = "Failed to publish ad: " ++ msg := by
      simp [invokeContract, htry]
    refine ⟨hres, ?_⟩
    rw [hres]
    apply strContains_of_decomp _ _ ("Failed to publish ad: " : String).data []
    simp [str_data_append]
  · intro hmsg
    subst hmsg
    simp [invokeContract, htry]

theorem invokeContract_thrown_messages_witness :
    (∀ msg, JsThrown.error "insufficient funds" = JsThrown.error msg →
      invokeContract throwWallet AD_CONTRACT_ADDRESS "createAd" AD_CONTRACT_ABI demoArgs
        = "Failed to publish ad: " ++ msg ∧
      strContains (invokeContract throwWallet AD_CONTRACT_ADDRESS "createAd"
        AD_CONTRACT_ABI demoArgs) msg = true) ∧
    (JsThrown.error "insufficient funds" = JsThrown.nonError →
      invokeContract throwWallet AD_CONTRACT_ADDRESS "createAd" AD_CONTRACT_ABI demoArgs
        = "Failed to publish ad due to an unknown error") :=
  invokeContract_thrown_messages throwWallet AD_CONTRACT_ADDRESS "createAd" AD_CONTRACT_ABI
    demoArgs (JsThrown.error "insufficient funds")
    ⟨AD_CONTRACT_ABI.head (by decide), by decide, by decide⟩ (Or.inl rfl)

/-- C6: when the method is present, the submission succeeds and the awaited
receipt yields no transaction hash, the result is exactly the distinct
soft-success message, which is not a failure string (it does not contain the
failure marker "Failed to publish ad"). -/
theorem invokeContract_missing_hash_soft (wallet : Wallet) (contractAddress method : String)
    (abi : List AbiFunction) (args : ContractArgs) (contractInvocation : ContractInvocation)
    (receipt : Receipt)
    (hm : ∃ func ∈ abi, func.name = method)
    (hw : wallet.invokeContract ⟨contractAddress, method, args, abi⟩
      = Except.ok contractInvocation)
    (hv : contractInvocation.wait = Except.ok receipt)
    (hh : receipt.getTransactionHash = none) :
    invokeContract wallet contractAddress method abi args = noHashMessage ∧
    strContains (invokeContract wallet contractAddress method abi args)
      "Failed to publish ad" = false := by
  have hfind : ∃ g, abi.find? (fun func => func.name == method) = some g := by
    obtain ⟨f, hf, hfn⟩ := hm
    have hsome : (abi.find? (fun func => func.name == method)).isSome = true := by
      rw [List.find?_isSome]
      exact ⟨f, hf, by simp [hfn]⟩
    exact Option.isSome_iff_exists.mp hsome
  obtain ⟨g, hg⟩ := hfind
  have hres : invokeContract wallet contractAddress method abi args = noHashMessage := by
    simp [invokeContract, invokeContractTry, hg, hw, hv, hh, jsFalsyOptStr]
  exact ⟨hres, by rw [hres]; decide⟩

theorem invokeContract_missing_hash_soft_witness :
    invokeContract noHashWallet AD_CONTRACT_ADDRESS "createAd" AD_CONTRACT_ABI demoArgs
      = noHashMessage ∧
    strContains (invokeContract noHashWallet AD_CONTRACT_ADDRESS "createAd"
      AD_CONTRACT_ABI demoArgs) "Failed to publish ad" = false :=
  invokeContract_missing_hash_soft noHashWallet AD_CONTRACT_ADDRESS "createAd"
    AD_CONTRACT_ABI demoArgs ⟨Except.ok ⟨none⟩⟩ ⟨none⟩
    ⟨AD_CONTRACT_ABI.head (by decide), by decide, by decide⟩ rfl rfl rfl

/-- Environment fixture with the language-model API key unset and every
other variable set. -/
def envMissingKey : Env :=
  fun varName => if varName = "OPENAI_API_KEY" then none else some "value"

/-- C7: when at least one required environment variable is missing (unset or
empty), startup validation exits with the non-zero code 1 and prints the
header followed by one line per missing variable; the listed variables are
exactly the required ones whose value is falsy — none omitted, none
fabricated. -/
theorem validateEnvironment_missing_exits (env : Env)
    (h : ∃ v ∈ requiredVars, jsFalsyOptStr (env v) = true) :
    validateEnvironment env
      = StartupResult.exited 1
          ("Error: Required environment variables are not set"
            :: (missingVars env).map missingVarLine) ∧
    (∀ v, v ∈ missingVars env ↔ v ∈ requiredVars ∧ jsFalsyOptStr (env v) = true) ∧
    (1 : Nat) ≠ 0 := by
  have hne : (missingVars env).isEmpty = false := by
    rw [Bool.eq_false_iff]
    intro he
    obtain ⟨v, hv, hfv⟩ := h
    have hmem : v ∈ missingVars env := List.mem_filter.mpr ⟨hv, hfv⟩
    rw [List.isEmpty_iff] at he
    rw [he] at hmem
    exact absurd hmem (List.not_mem_nil v)
  refine ⟨by simp [validateEnvironment, hne], ?_, by decide⟩
  intro v
  constructor
  · intro hv
    exact List.mem_filter.mp hv
  · intro ⟨hv, hfv⟩
    exact List.mem_filter.mpr ⟨hv, hfv⟩

theorem validateEnvironment_missing_exits_witness :
    validateEnvironment envMissingKey
      = StartupResult.exited 1
          ("Error: Required environment variables are not set"
            :: (missingVars envMissingKey).map missingVarLine) ∧
    (∀ v, v ∈ missingVars envMissingKey
      ↔ v ∈ requiredVars ∧ jsFalsyOptStr (envMissingKey v) = true) ∧
    (1 : Nat) ≠ 0 :=
  validateEnvironment_missing_exits envMissingKey ⟨"OPENAI_API_KEY", by decide, by decide⟩

/-- C8: over any finite sequence of chat-mode input lines, the forwarded
messages are exactly the longest prefix of lines whose lowercasing is not
"exit", each forwarded verbatim; a line lowercasing to "exit" terminates the
loop without being forwarded, and any other line is forwarded unchanged. -/
theorem runChatMode_forwards (inputs : List String) :
    runChatMode inputs = inputs.takeWhile (fun l => !(jsToLower l == "exit")) ∧
    (∀ l ∈ runChatMode inputs, jsToLower l ≠ "exit") ∧
    (∀ line rest, jsToLower line = "exit" → runChatMode (line :: rest) = []) ∧
    (∀ line rest, jsToLower line ≠ "exit" →
      runChatMode (line :: rest) = line :: runChatMode rest) := by
  have h1 : ∀ ins : List String,
      runChatMode ins = ins.takeWhile (fun l => !(jsToLower l == "exit")) := by
    intro ins
    induction ins with
    | nil => rfl
    | cons a rest ih =>
      by_cases h : jsToLower a = "exit"
      · simp [runChatMode, List.takeWhile_cons, h]
      · simp [runChatMode, List.takeWhile_cons, h, ih]
  refine ⟨h1 inputs, ?_, ?_, ?_⟩
  · intro l hl
    rw [h1 inputs] at hl
    have := List.mem_takeWhile_imp hl
    simpa using this
  · intro line rest h
    simp [runChatMode, h]
  · intro line rest h
    simp [runChatMode, h]

theorem runChatMode_forwards_witness :
    runChatMode ["hello", "EXIT", "ignored"]
      = (["hello", "EXIT", "ignored"] : List String).takeWhile
          (fun l => !(jsToLower l == "exit")) ∧
    (∀ l ∈ runChatMode ["hello", "EXIT", "ignored"], jsToLower l ≠ "exit") ∧
    (∀ line rest, jsToLower line = "exit" → runChatMode (line :: rest) = []) ∧
    (∀ line rest, jsToLower line ≠ "exit" →
      runChatMode (line :: rest) = line :: runChatMode rest) :=
  runChatMode_forwards ["hello", "EXIT", "ignored"]

/-- C10: the chat-mode exit check lowercases but does not trim, so a line
consisting of "exit" plus trailing whitespace is forwarded to the agent
instead of terminating the loop, while the mode chooser both lowercases and
trims, so the whitespace-surrounded answer " CHAT " is accepted as the chat
mode. -/
theorem chat_exit_untrimmed_mode_trimmed :
    (∀ rest : List String, runChatMode ("exit " :: rest) = "exit " :: runChatMode rest) ∧
    chooseMode " CHAT " = some AgentMode.chat := by
  constructor
  · intro rest
    have h : jsToLower "exit " ≠ "exit" := by decide
    simp [runChatMode, h]
  · decide

theorem chat_exit_untrimmed_mode_trimmed_witness :
    runChatMode ["exit "] = ["exit "] ∧ chooseMode " CHAT " = some AgentMode.chat :=
  ⟨chat_exit_untrimmed_mode_trimmed.1 [], chat_exit_untrimmed_mode_trimmed.2⟩

/-- Environment fixture in which the optional network variable is set to a
non-default network and every other variable is set. -/
def envWithNetwork : Env :=
  fun varName => if varName = "NETWORK_ID" then some "ethereum-mainnet" else some "value"

/-- C9: evaluation of the wallet-configuration construction at an
environment whose NETWORK_ID is set to "ethereum-mainnet": the config still
carries the literal "base-sepolia" — the code passes "base-sepolia"
unconditionally, for every environment and wallet-data value, so the
optional variable never determines the network, contradicting the code's
own warning that it only "defaults" to base-sepolia when the variable is
unset. -/
theorem networkId_ignores_env :
    envWithNetwork "NETWORK_ID" = some "ethereum-mainnet" ∧
    (initializeAgentConfig envWithNetwork (some "walletdata")).networkId = "base-sepolia" ∧
    (∀ (env : Env) (walletDataStr : Option String),
      (initializeAgentConfig env walletDataStr).networkId = "base-sepolia") ∧
    "base-sepolia" ≠ "ethereum-mainnet" :=
  ⟨rfl, rfl, fun _ _ => rfl, by decide⟩

/-- C4 counterexample: two distinct upload calls — they even fetch different
source image URLs — that observe the same `Date.now()` millisecond and the
same `Math.random()` draw generate identical object keys, so the generated
keys of two calls are not unconditionally distinct. -/
theorem uploadImageUrlToS3_key_collision :
    (uploadImageUrlToS3 "https://dalle.example/a.png" 1700000000000 4242).objectKey
      = (uploadImageUrlToS3 "https://dalle.example/b.png" 1700000000000 4242).objectKey ∧
    "https://dalle.example/a.png" ≠ "https://dalle.example/b.png" :=
  ⟨rfl, by decide⟩

/-- C4 amended: the generated keys of two upload calls are distinct whenever
the calls observe different timestamps or different random suffixes (the
key is a function of exactly that pair), and each call returns a URL string
containing that call's generated object key. -/
theorem uploadImageUrlToS3_keys (imageUrl₁ imageUrl₂ : String) (now₁ rand₁ now₂ rand₂ : Nat)
    (h : (now₁, rand₁) ≠ (now₂, rand₂)) :
    (uploadImageUrlToS3 imageUrl₁ now₁ rand₁).objectKey
      ≠ (uploadImageUrlToS3 imageUrl₂ now₂ rand₂).objectKey ∧
    strContains (uploadImageUrlToS3 imageUrl₁ now₁ rand₁).s3Url
      (uploadImageUrlToS3 imageUrl₁ now₁ rand₁).objectKey = true ∧
    strContains (uploadImageUrlToS3 imageUrl₂ now₂ rand₂).s3Url
      (uploadImageUrlToS3 imageUrl₂ now₂ rand₂).objectKey = true := by
  refine ⟨?_, ?_, ?_⟩
  · intro habs
    obtain ⟨hn, hr⟩ := objectKey_inj now₁ rand₁ now₂ rand₂ habs
    exact h (by rw [hn, hr])
  · apply strContains_of_decomp _ _
      (("https://placeholderads.s3.ap-south-1.amazonaws.com/" : String).data) []
    simp [uploadImageUrlToS3, str_data_append]
  · apply strContains_of_decomp _ _
      (("https://placeholderads.s3.ap-south-1.amazonaws.com/" : String).data) []
    simp [uploadImageUrlToS3, str_data_append]

theorem uploadImageUrlToS3_keys_witness :
    (uploadImageUrlToS3 "https://dalle.example/a.png" 1700000000000 4242).objectKey
      ≠ (uploadImageUrlToS3 "https://dalle.example/a.png" 1700000000001 4242).objectKey ∧
    strContains (uploadImageUrlToS3 "https://dalle.example/a.png" 1700000000000 4242).s3Url
      (uploadImageUrlToS3 "https://dalle.example/a.png" 1700000000000 4242).objectKey = true ∧
    strContains (uploadImageUrlToS3 "https://dalle.example/a.png" 1700000000001 4242).s3Url
      (uploadImageUrlToS3 "https://dalle.example/a.png" 1700000000001 4242).objectKey = true :=
  uploadImageUrlToS3_keys "https://dalle.example/a.png" "https://dalle.example/a.png"
    1700000000000 4242 1700000000001 4242 (by decide)
